import Mathlib

/-!
Verification development for the multi-camera face-recognition pipeline.

The Python sources are shallowly embedded:
* face descriptors are abstracted as integers, and the library distance
  function (a Euclidean-style metric produced by the opaque recognition
  capability) is a parameter `dist : Int → Int → ℚ`;
* wall-clock times are rationals;
* each stateful loop becomes an explicit step function on a state record,
  emitting a trace of side effects.
-/

namespace VisionPro

/-- Numpy argmin over a nonempty list `x :: xs`, returning the index of the
first minimum together with the minimum value (`np.argmin` ties break to the
earliest index). -/
def npArgminAux : ℚ → List ℚ → Nat × ℚ
  | x, [] => (0, x)
  | x, y :: ys =>
    let jm := npArgminAux y ys
    if x ≤ jm.2 then (0, x) else (jm.1 + 1, jm.2)

/-- Index of the first minimal element of a list of distances, as computed by
`np.argmin` (`0` on the empty list, which the code never queries). -/
def npArgmin : List ℚ → Nat
  | [] => 0
  | x :: xs => (npArgminAux x xs).1

/-! ## Configuration constants (config.py) -/

/-- `config.RECOGNITION_TOLERANCE = 0.6`. -/
def RECOGNITION_TOLERANCE : ℚ := mkRat 6 10

/-- `config.UNKNOWN_CAPTURE_DEBOUNCE_TIME = 10` seconds. -/
def UNKNOWN_CAPTURE_DEBOUNCE_TIME : ℚ := 10

/-- `config.KNOWN_FACE_LOG_DEBOUNCE_TIME = 25` seconds. -/
def KNOWN_FACE_LOG_DEBOUNCE_TIME : ℚ := 25

/-! ## Face match engine

`camera_stream.py` lines 200-210: against the known catalog, the code runs
`compare_faces` (which is `face_distance(refs, probe) <= tolerance`
entrywise), takes `np.argmin` of the distances and accepts the best entry
only when `matches[best_match_index]` is true. -/

/-- The known-catalog match of `CameraStream._run_processing_loop` (lines
200-210), returning the accepted best index: `None` when the reference list
is empty or `matches[np.argmin(face_distances)]` is false. -/
def bestMatchIndex (dist : Int → Int → ℚ) (tol : ℚ) (encs : List Int) (d : Int) :
    Option Nat :=
  if encs.isEmpty then none
  else
    let face_distances := encs.map fun e => dist e d
    let matchResults := face_distances.map fun q => decide (q ≤ tol)
    let best_match_index := npArgmin face_distances
    if matchResults.getD best_match_index false then some best_match_index else none

/-! ## Intruder registry (intruder_tracker.py) -/

/-- The pickled pair `(list_of_encodings, list_of_intruder_ids)` stored in
`intruder_encodings.pkl`. -/
structure Registry where
  encodings : List Int
  ids : List String
  deriving Repr, DecidableEq

/-- The id string assigned to the `n`-th intruder: `"Intruder_" + n`. -/
def intruderId (n : Nat) : String := "Intruder_" ++ toString n

/-- `intruder_tracker.match_or_add_intruder` (lines 42-79).  Returns the
resolved id, the registry as left on disk afterwards, and whether
`save_intruder_db` was called.  The match phase mirrors the source: only when
the stored encodings are nonempty, compute `compare_faces` and
`face_distance`; if `True in matches`, return `ids[np.argmin(face_distances)]`
without touching the registry.  Otherwise append
`(new_encoding, "Intruder_" + (len(ids)+1))` and save. -/
def match_or_add_intruder (dist : Int → Int → ℚ) (tol : ℚ) (reg : Registry)
    (new_encoding : Int) : String × Registry × Bool :=
  let matched : Option String :=
    if reg.encodings.isEmpty then none
    else
      let matchResults := reg.encodings.map fun e => decide (dist e new_encoding ≤ tol)
      let face_distances := reg.encodings.map fun e => dist e new_encoding
      if matchResults.contains true then
        some (reg.ids.getD (npArgmin face_distances) "")
      else none
  match matched with
  | some matched_id => (matched_id, reg, false)
  | none =>
    let n := reg.ids.length + 1
    let new_intruder_id := intruderId n
    (new_intruder_id,
      ⟨reg.encodings ++ [new_encoding], reg.ids ++ [new_intruder_id]⟩, true)

/-- Resolving a list of descriptors one at a time through
`match_or_add_intruder`, collecting for each step the returned id and the
saved-to-disk flag, together with the final registry. -/
def buildSteps (dist : Int → Int → ℚ) (tol : ℚ) :
    Registry → List Int → List (String × Bool) × Registry
  | reg, [] => ([], reg)
  | reg, d :: ds =>
    let step := match_or_add_intruder dist tol reg d
    let rest := buildSteps dist tol step.2.1 ds
    ((step.1, step.2.2) :: rest.1, rest.2)

/-! ## Debounce coordinator

`camera_stream.py` lines 220-232: under `_unknown_capture_debounce_lock`, the
code compares `time.time()` with the global `_last_unknown_capture_time`; at
an elapsed time of at least `UNKNOWN_CAPTURE_DEBOUNCE_TIME` it updates the
timestamp and allows the full intruder event, otherwise it suppresses it. -/

/-- One consultation of the global unknown-event gate: given the stored
timestamp and the current time, returns (allowed?, new stored timestamp),
exactly the compare-and-update done under the shared mutex. -/
def debounceStep (window last now : ℚ) : Bool × ℚ :=
  if window ≤ now - last then (true, now) else (false, last)

/-- A sequence of gate consultations at the given instants, starting from a
stored timestamp, returning the allow/suppress decision of each. -/
def debounceRun (window : ℚ) : ℚ → List ℚ → List Bool
  | _, [] => []
  | last, t :: ts =>
    let step := debounceStep window last t
    step.1 :: debounceRun window step.2 ts

/-! ## Recognition stage state and side effects -/

/-- Environment fixed for the lifetime of a run: the opaque distance
capability, the known catalog (`known_face_encodings` / `_names` /
`_genders`) and the configured tolerances and debounce windows. -/
structure RecogEnv where
  dist : Int → Int → ℚ
  tol : ℚ
  knownEncodings : List Int
  knownNames : List String
  knownGenders : List String
  unknownWindow : ℚ
  knownWindow : ℚ

/-- Per-`CameraStream` mutable state used by `_run_processing_loop`: the
frame counter, the per-session `last_logged_times` dict (assoc list keyed by
the full `name__gender` label), and the Python local variable
`intruder_id_for_event` (`none` while it has never been bound). -/
structure SessionState where
  frameCounter : Nat
  lastLoggedTimes : List (String × ℚ)
  intruderIdVar : Option String
  deriving Repr, DecidableEq

/-- State shared by every camera session: the module-level
`_last_unknown_capture_time` and the on-disk intruder registry. -/
structure GlobalState where
  lastUnknownCaptureTime : ℚ
  registry : Registry
  deriving Repr, DecidableEq

/-- Lookup in the `last_logged_times` dict. -/
def lookupTime : List (String × ℚ) → String → Option ℚ
  | [], _ => none
  | kv :: rest, key => if kv.1 = key then some kv.2 else lookupTime rest key

/-- Store into the `last_logged_times` dict. -/
def setTime : List (String × ℚ) → String → ℚ → List (String × ℚ)
  | [], key, v => [(key, v)]
  | kv :: rest, key, v =>
    if kv.1 = key then (key, v) :: rest else kv :: setTime rest key v

/-- Observable side effects emitted while handling one detected face. -/
inductive Effect where
  | saveRegistry (reg : Registry)
  | captureImage (path : String)
  | logEntry (name gender : String) (imageLink : Option String)
  | emailAlert (path : String)
  deriving Repr, DecidableEq

/-- The known-catalog resolution of lines 195-210: the pair
`(recognized_name_with_gender, recognized_gender_only)`, defaulting to
`("Unknown", "Intruder")` when there is no accepted match. -/
def resolveKnown (env : RecogEnv) (d : Int) : String × String :=
  match bestMatchIndex env.dist env.tol env.knownEncodings d with
  | some i => (env.knownNames.getD i "Unknown", env.knownGenders.getD i "Intruder")
  | none => ("Unknown", "Intruder")

/-- `recognized_name_with_gender.split('__')[0] if '__' in ... else ...`
(lines 209-210). -/
def personNameOnly (nameWithGender : String) : String :=
  let parts := nameWithGender.splitOn "__"
  if 1 < parts.length then parts.headD nameWithGender else nameWithGender

/-- Handling of one face encoding by `_run_processing_loop` (lines 195-280):
known-catalog resolution, then either the debounced full intruder event
(lines 213-264) or the per-session known-face log gate (lines 274-280).
Returns the display label pushed onto `faces_to_display_on_frame` (or the
Python error raised when the unbound `intruder_id_for_event` is read), the
updated session and global states, and the emitted side effects. `now` is
the wall-clock instant and `imgPath` the timestamp-derived snapshot path
that `cv2.imwrite` would use. -/
def processFace (env : RecogEnv) (now : ℚ) (imgPath : String)
    (st : SessionState) (g : GlobalState) (d : Int) :
    Except String String × SessionState × GlobalState × List Effect :=
  let resolved := resolveKnown env d
  if resolved.1 = "Unknown" then
    let gate := debounceStep env.unknownWindow g.lastUnknownCaptureTime now
    if gate.1 then
      let step := match_or_add_intruder env.dist env.tol g.registry d
      let saveFx : List Effect := if step.2.2 then [.saveRegistry step.2.1] else []
      (.ok step.1,
        { st with intruderIdVar := some step.1 },
        ⟨gate.2, step.2.1⟩,
        saveFx ++ [.captureImage imgPath,
          .logEntry step.1 "Intruder" (some imgPath), .emailAlert imgPath])
    else
      match st.intruderIdVar with
      | some prev => (.ok prev, st, ⟨gate.2, g.registry⟩, [])
      | none =>
        (.error "UnboundLocalError: intruder_id_for_event", st,
          ⟨gate.2, g.registry⟩, [])
  else
    let nameOnly := personNameOnly resolved.1
    let shouldLog :=
      match lookupTime st.lastLoggedTimes resolved.1 with
      | none => true
      | some t0 => decide (env.knownWindow ≤ now - t0)
    if shouldLog then
      (.ok nameOnly,
        { st with lastLoggedTimes := setTime st.lastLoggedTimes resolved.1 now },
        g, [.logEntry nameOnly resolved.2 none])
    else
      (.ok nameOnly, st, g, [])

/-- Folding `processFace` over the face encodings of one frame (the
`for face_encoding in face_encodings` loop), threading the states, collecting
the display labels and concatenating the effects.  A raised
`UnboundLocalError` aborts the loop (it is outside the try/except of lines
157-178), keeping the states and effects produced so far. -/
def foldFaces (env : RecogEnv) (now : ℚ) (imgPath : String) :
    SessionState → GlobalState → List Int →
    Except String (List String) × SessionState × GlobalState × List Effect
  | st, g, [] => (.ok [], st, g, [])
  | st, g, d :: ds =>
    match processFace env now imgPath st g d with
    | (.error e, st1, g1, fx) => (.error e, st1, g1, fx)
    | (.ok name, st1, g1, fx) =>
      let rest := foldFaces env now imgPath st1 g1 ds
      (rest.1.map (name :: ·), rest.2.1, rest.2.2.1, fx ++ rest.2.2.2)

/-- One face location `(top, right, bottom, left)` in the downscaled frame,
as returned by `face_recognition.face_locations`. -/
structure FaceLoc where
  top : Int
  right : Int
  bottom : Int
  left : Int
  deriving Repr, DecidableEq

/-- Things drawn onto the forwarded frame: a labeled face rectangle (with
coordinates already rescaled by 4 and a flag telling whether the green
known-person color was chosen), or the red "no face" banner. -/
inductive Overlay where
  | faceBox (top right bottom left : Int) (label : String) (green : Bool)
  | banner (text : String)
  deriving Repr, DecidableEq

/-- The frame published to the display queue: the base frame plus the list
of overlays drawn onto `drawn_frame` (empty means `frame.copy()` forwarded
untouched). -/
structure DrawnFrame where
  base : Int
  overlays : List Overlay
  deriving Repr, DecidableEq

/-- `MAX_REASONABLE_FACES = 10` (line 160). -/
def MAX_REASONABLE_FACES : Nat := 10

/-- The size filter of lines 166-175: keep a location only if its height and
width are both at least `min_face_size = 20`. -/
def validFaceLoc (l : FaceLoc) : Bool :=
  decide (20 ≤ l.bottom - l.top) && decide (20 ≤ l.right - l.left)

/-- The drawing of lines 285-296: a rectangle and label per surviving face,
coordinates scaled by 4, green exactly when the label is neither `"Unknown"`
nor an `"Intruder_"` label. -/
def overlaysFor (locs : List FaceLoc) (names : List String) : List Overlay :=
  (locs.zip names).map fun ln =>
    .faceBox (4 * ln.1.top) (4 * ln.1.right) (4 * ln.1.bottom) (4 * ln.1.left)
      ln.2 (ln.2 ≠ "Unknown" && !ln.2.startsWith "Intruder_")

/-- Result of handling one received frame in `_run_processing_loop`. -/
structure FrameStepResult where
  st : SessionState
  g : GlobalState
  output : Option DrawnFrame
  effects : List Effect
  processedThisFrame : Bool
  err : Option String
  deriving Repr, DecidableEq

/-- One iteration of `_run_processing_loop` (lines 131-312) after a frame has
been received from the internal queue.  `dets` is what the opaque detection
capability reports for the downscaled frame: the face locations paired with
the descriptor that `face_encodings` would compute for each.  The counter is
incremented, `process_this_frame = (counter % 4 == 0)` decides whether
detection runs; a detection count above `MAX_REASONABLE_FACES` drops the
frame entirely (`continue`, so nothing reaches the display queue); otherwise
small boxes are discarded, each remaining face is resolved, and the drawn
frame is published. -/
def processFrameStep (env : RecogEnv) (now : ℚ) (imgPath : String)
    (st : SessionState) (g : GlobalState) (frame : Int)
    (dets : List (FaceLoc × Int)) : FrameStepResult :=
  let counter := st.frameCounter + 1
  let st1 := { st with frameCounter := counter }
  if counter % 4 = 0 then
    if MAX_REASONABLE_FACES < dets.length then
      ⟨st1, g, none, [], true, none⟩
    else
      let valid := dets.filter fun li => validFaceLoc li.1
      let folded := foldFaces env now imgPath st1 g (valid.map (·.2))
      match folded.1 with
      | .error e => ⟨folded.2.1, folded.2.2.1, none, folded.2.2.2, true, some e⟩
      | .ok names =>
        let drawn : DrawnFrame :=
          if 0 < valid.length then
            ⟨frame, overlaysFor (valid.map (·.1)) names⟩
          else
            ⟨frame, [.banner "Non human object or no face detected"]⟩
        ⟨folded.2.1, folded.2.2.1, some drawn, folded.2.2.2, true, none⟩
  else
    ⟨st1, g, some ⟨frame, []⟩, [], false, none⟩

/-! ## Acquisition stage (reader loop)

`camera_stream.py` lines 52-104.  The internal handoff queue is
`queue.Queue(maxsize=1)`; modelled as a list of frames of length at most 1. -/

/-- The enqueue of lines 90-96: if the internal queue is nonempty,
`get_nowait()` removes its head; then `put_nowait(frame)` inserts the new
frame unless the queue is (still) at capacity, in which case the frame is
dropped.  Never blocks. -/
def readerEnqueue (q : List Int) (frame : Int) : List Int :=
  let q1 := if q.isEmpty then q else q.tail
  if q1.length < 1 then q1 ++ [frame] else q1

/-- Successive acquisitions with the recognition stage never reading. -/
def readerFeed (q : List Int) (frames : List Int) : List Int :=
  frames.foldl readerEnqueue q

/-- What the reader thread observes on one loop iteration: either
`cap.read()` yields a frame, or it fails and the subsequent reopen attempt
succeeds or not. -/
inductive ReadEvent where
  | frame (f : Int)
  | readFail (reopenOk : Bool)
  deriving Repr, DecidableEq

/-- Externally visible actions of the reader thread. -/
inductive RAction where
  | enqueue (f : Int)
  | release
  | backoff
  | reopen (ok : Bool)
  | setStop
  deriving Repr, DecidableEq

/-- Reader-thread state: the internal handoff queue, the shared stop flag
(the same `stop_event` consulted by the processing thread of every session),
and whether the capture resource is currently held open. -/
structure ReaderState where
  queue : List Int
  stop : Bool
  capOpen : Bool
  deriving Repr, DecidableEq

/-- One iteration of the reader loop body (lines 73-100): a successful read
is placed in the handoff queue; a failed read releases the capture, backs
off, and reopens; if the reopen fails, the shared stop flag is set and the
loop breaks. -/
def readerStep (s : ReaderState) (e : ReadEvent) : ReaderState × List RAction :=
  match e with
  | .frame f => ({ s with queue := readerEnqueue s.queue f }, [.enqueue f])
  | .readFail ok =>
    if ok then
      ({ s with capOpen := true }, [.release, .backoff, .reopen true])
    else
      ({ s with capOpen := false, stop := true },
        [.release, .backoff, .reopen false, .setStop])

/-- The reader loop from an opened capture (lines 73-104): iterate
`readerStep` while the stop flag is unset; on loop exit — events exhausted,
stop observed at the top of the loop, or the break after a failed reopen —
the final `self.cap.release()` of line 103 runs. -/
def readerRun (s : ReaderState) : List ReadEvent → ReaderState × List RAction
  | [] => ({ s with capOpen := false }, [.release])
  | e :: es =>
    if s.stop then ({ s with capOpen := false }, [.release])
    else
      let step := readerStep s e
      if step.1.stop then
        ({ step.1 with capOpen := false }, step.2 ++ [.release])
      else
        let rest := readerRun step.1 es
        (rest.1, step.2 ++ rest.2)

/-- The whole reader thread (lines 52-104): the initial
`cv2.VideoCapture` open; when it fails the thread sets the shared stop flag
and returns at line 64 (never having held the resource); otherwise the loop
runs. -/
def readerThread (openOk : Bool) (q : List Int) (events : List ReadEvent) :
    ReaderState × List RAction :=
  if openOk then readerRun ⟨q, false, true⟩ events
  else (⟨q, true, false⟩, [.setStop])

/-! ## Concrete fixtures used to evaluate the theorems -/

/-- A concrete stand-in for the opaque library distance: the absolute
difference of the two abstracted descriptors. -/
def testDist (a b : Int) : ℚ := ((a - b).natAbs : ℚ)

/-- A one-person known catalog with the configured default tolerances and
windows. -/
def testEnv : RecogEnv :=
  ⟨testDist, RECOGNITION_TOLERANCE, [0], ["Alice__female"], ["female"],
    UNKNOWN_CAPTURE_DEBOUNCE_TIME, KNOWN_FACE_LOG_DEBOUNCE_TIME⟩

/-! ## Helper lemmas about the argmin -/

theorem npArgminAux_le (x : ℚ) (ys : List ℚ) :
    (npArgminAux x ys).2 ≤ x ∧ ∀ y ∈ ys, (npArgminAux x ys).2 ≤ y := by
  induction ys generalizing x with
  | nil => simp [npArgminAux]
  | cons y ys ih =>
    have hy := ih y
    by_cases h : x ≤ (npArgminAux y ys).2
    · refine ⟨by simp [npArgminAux, h], ?_⟩
      intro z hz
      rcases List.mem_cons.mp hz with hz | hz
      · subst hz; simpa [npArgminAux, h] using le_trans h hy.1
      · simpa [npArgminAux, h] using le_trans h (hy.2 z hz)
    · refine ⟨by simpa [npArgminAux, h] using le_of_not_le h, ?_⟩
      intro z hz
      rcases List.mem_cons.mp hz with hz | hz
      · subst hz; simpa [npArgminAux, h] using hy.1
      · simpa [npArgminAux, h] using hy.2 z hz

theorem npArgminAux_lt_length (x : ℚ) (ys : List ℚ) :
    (npArgminAux x ys).1 < ys.length + 1 := by
  induction ys generalizing x with
  | nil => simp [npArgminAux]
  | cons y ys ih =>
    by_cases h : x ≤ (npArgminAux y ys).2 <;> simp [npArgminAux, h]
    exact ih y

theorem npArgminAux_getD (x : ℚ) (ys : List ℚ) :
    (x :: ys).getD (npArgminAux x ys).1 0 = (npArgminAux x ys).2 := by
  induction ys generalizing x with
  | nil => simp [npArgminAux]
  | cons y ys ih =>
    by_cases h : x ≤ (npArgminAux y ys).2 <;> simp [npArgminAux, h]
    simpa [List.getD] using ih y

/-- The value at the argmin index is a lower bound of the whole list. -/
theorem npArgmin_spec (x : ℚ) (ys : List ℚ) :
    (x :: ys).getD (npArgmin (x :: ys)) 0 ≤ x ∧
      ∀ y ∈ ys, (x :: ys).getD (npArgmin (x :: ys)) 0 ≤ y := by
  have h := npArgminAux_le x ys
  have hg := npArgminAux_getD x ys
  exact ⟨by rw [npArgmin, hg]; exact h.1, fun y hy => by rw [npArgmin, hg]; exact h.2 y hy⟩

theorem npArgmin_lt_length (x : ℚ) (ys : List ℚ) :
    npArgmin (x :: ys) < (x :: ys).length := by
  simpa [npArgmin] using npArgminAux_lt_length x ys

/-! ## Helper lemmas about the match engine -/

theorem getD_mem_of_lt (l : List ℚ) (i : Nat) (h : i < l.length) :
    l.getD i 0 ∈ l := by
  rw [List.getD_eq_getElem?_getD, List.getElem?_eq_getElem h]
  exact List.getElem_mem h

theorem getD_map_decide (tol : ℚ) (l : List ℚ) (i : Nat) (h : i < l.length) :
    (l.map fun q => decide (q ≤ tol)).getD i false = decide (l.getD i 0 ≤ tol) := by
  rw [List.getD_eq_getElem?_getD, List.getD_eq_getElem?_getD,
    List.getElem?_eq_getElem (by simpa using h), List.getElem?_eq_getElem h]
  simp

theorem contains_true_iff (tol : ℚ) (l : List ℚ) :
    (l.map fun q => decide (q ≤ tol)).contains true = true ↔ ∃ q ∈ l, q ≤ tol := by
  induction l with
  | nil => simp
  | cons x xs ih => by_cases h : x ≤ tol <;> simp [h, ih]

theorem contains_decide_le_iff (dist : Int → Int → ℚ) (tol : ℚ) (d : Int)
    (encs : List Int) :
    ((encs.map fun e => decide (dist e d ≤ tol)).contains true = true) ↔
      ∃ e ∈ encs, dist e d ≤ tol := by
  induction encs with
  | nil => simp
  | cons x xs ih => by_cases h : dist x d ≤ tol <;> simp [h, ih]

/-- The minimum property of the distance list used by both match sites. -/
theorem npArgmin_min_spec (l : List ℚ) (h : l ≠ []) :
    npArgmin l < l.length ∧ (∀ q ∈ l, l.getD (npArgmin l) 0 ≤ q) ∧
      l.getD (npArgmin l) 0 ∈ l := by
  match l, h with
  | x :: ys, _ =>
    have hs := npArgmin_spec x ys
    refine ⟨npArgmin_lt_length x ys, ?_, getD_mem_of_lt _ _ (npArgmin_lt_length x ys)⟩
    intro q hq
    rcases List.mem_cons.mp hq with hq | hq
    · exact hq ▸ hs.1
    · exact hs.2 q hq

/-- Characterization of the known-catalog match: nonempty references, and the
minimum distance within tolerance, yield the argmin index; otherwise no
match. -/
theorem bestMatchIndex_char (dist : Int → Int → ℚ) (tol : ℚ) (encs : List Int)
    (d : Int) :
    bestMatchIndex dist tol encs d =
      if encs = [] then none
      else
        let dists := encs.map fun e => dist e d
        if dists.getD (npArgmin dists) 0 ≤ tol then some (npArgmin dists)
        else none := by
  by_cases he : encs = []
  · simp [bestMatchIndex, he]
  · have hne : (encs.map fun e => dist e d) ≠ [] := by
      simpa using he
    have hlt := (npArgmin_min_spec _ hne).1
    rw [bestMatchIndex]
    simp only [List.isEmpty_iff, he, if_false, if_neg he]
    rw [getD_map_decide _ _ _ hlt]
    by_cases hm : (encs.map fun e => dist e d).getD
        (npArgmin (encs.map fun e => dist e d)) 0 ≤ tol <;> simp [hm]

/-- Characterization of the match phase of `match_or_add_intruder`: it agrees
with the known-catalog match engine. -/
theorem match_or_add_intruder_char (dist : Int → Int → ℚ) (tol : ℚ)
    (reg : Registry) (d : Int) :
    match_or_add_intruder dist tol reg d =
      match bestMatchIndex dist tol reg.encodings d with
      | some i => (reg.ids.getD i "", reg, false)
      | none =>
        let newId := intruderId (reg.ids.length + 1)
        (newId, ⟨reg.encodings ++ [d], reg.ids ++ [newId]⟩, true) := by
  obtain ⟨encs, ids⟩ := reg
  by_cases he : encs = []
  · subst he; simp [match_or_add_intruder, bestMatchIndex]
  · have hne : (encs.map fun e => dist e d) ≠ [] := by
      simpa using he
    have hmin := npArgmin_min_spec _ hne
    have key : (encs.map fun e => decide (dist e d ≤ tol)).contains true
        = ((encs.map fun e => dist e d).map fun q => decide (q ≤ tol)).getD
            (npArgmin (encs.map fun e => dist e d)) false := by
      rw [getD_map_decide _ _ _ hmin.1]
      by_cases hm : (encs.map fun e => dist e d).getD
          (npArgmin (encs.map fun e => dist e d)) 0 ≤ tol
      · rw [decide_eq_true hm]
        refine (contains_decide_le_iff dist tol d encs).mpr ?_
        obtain ⟨e, he', hq⟩ := List.mem_map.mp hmin.2.2
        exact ⟨e, he', by rw [hq]; exact hm⟩
      · rw [decide_eq_false hm]
        cases hcb : (encs.map fun e => decide (dist e d ≤ tol)).contains true with
        | false => rfl
        | true =>
          obtain ⟨e, he', hq⟩ := (contains_decide_le_iff dist tol d encs).mp hcb
          exact absurd
            (le_trans (hmin.2.1 (dist e d) (List.mem_map_of_mem _ he')) hq) hm
    simp only [match_or_add_intruder, bestMatchIndex]
    rw [← key]
    cases hcb : (encs.map fun e => decide (dist e d ≤ tol)).contains true <;>
      simp [hcb, he]

theorem bestMatchIndex_none_iff (dist : Int → Int → ℚ) (tol : ℚ) (encs : List Int)
    (d : Int) :
    bestMatchIndex dist tol encs d = none ↔
      encs = [] ∨ ∀ e ∈ encs, tol < dist e d := by
  rw [bestMatchIndex_char]
  by_cases he : encs = []
  · simp [he]
  · have hne : (encs.map fun e => dist e d) ≠ [] := by simpa using he
    have hmin := npArgmin_min_spec _ hne
    by_cases hm : (encs.map fun e => dist e d).getD
        (npArgmin (encs.map fun e => dist e d)) 0 ≤ tol
    · simp only [he, if_neg he, hm, if_pos hm, false_or]
      constructor
      · intro h; exact absurd h (by simp)
      · intro hall
        obtain ⟨e, he', hq⟩ := List.mem_map.mp hmin.2.2
        exact absurd (hq ▸ hm) (not_le.mpr (hall e he'))
    · rw [if_neg he, if_neg hm]
      refine iff_of_true rfl (Or.inr ?_)
      intro e he'
      by_contra hlt
      exact hm (le_trans (hmin.2.1 (dist e d) (List.mem_map_of_mem _ he'))
        (le_of_not_lt hlt))

theorem bestMatchIndex_some_spec (dist : Int → Int → ℚ) (tol : ℚ) (encs : List Int)
    (d : Int) (i : Nat) (h : bestMatchIndex dist tol encs d = some i) :
    i < encs.length ∧ (encs.map fun e => dist e d).getD i 0 ≤ tol ∧
      ∀ q ∈ encs.map fun e => dist e d, (encs.map fun e => dist e d).getD i 0 ≤ q := by
  rw [bestMatchIndex_char] at h
  by_cases he : encs = []
  · simp [he] at h
  · have hne : (encs.map fun e => dist e d) ≠ [] := by simpa using he
    have hmin := npArgmin_min_spec _ hne
    simp only [he, if_neg he] at h
    by_cases hm : (encs.map fun e => dist e d).getD
        (npArgmin (encs.map fun e => dist e d)) 0 ≤ tol
    · rw [if_pos hm] at h
      obtain rfl : npArgmin (encs.map fun e => dist e d) = i := by
        exact Option.some_injective _ h
      exact ⟨by simpa using hmin.1, hm, hmin.2.1⟩
    · rw [if_neg hm] at h
      exact absurd h (by simp)

/-! ## Helper lemmas about the session log dictionary -/

theorem lookupTime_setTime_self (l : List (String × ℚ)) (k : String) (v : ℚ) :
    lookupTime (setTime l k v) k = some v := by
  induction l with
  | nil => simp [setTime, lookupTime]
  | cons kv rest ih =>
    by_cases h : kv.1 = k
    · simp [setTime, h, lookupTime]
    · simp [setTime, h, lookupTime, ih]

theorem lookupTime_setTime_ne (l : List (String × ℚ)) (k k' : String) (v : ℚ)
    (h : k' ≠ k) : lookupTime (setTime l k v) k' = lookupTime l k' := by
  induction l with
  | nil => simp [setTime, lookupTime, Ne.symm h]
  | cons kv rest ih =>
    by_cases hk : kv.1 = k
    · subst hk
      simp [setTime, lookupTime, h, Ne.symm h]
    · by_cases hk' : kv.1 = k' <;> simp [setTime, lookupTime, hk, hk', h, ih]

/-! ## Helper lemmas about the reader loop -/

theorem readerEnqueue_eq (q : List Int) (f : Int) (h : q.length ≤ 1) :
    readerEnqueue q f = [f] := by
  match q, h with
  | [], _ => simp [readerEnqueue]
  | [x], _ => simp [readerEnqueue]

theorem readerFeed_length (frames : List Int) :
    ∀ q : List Int, q.length ≤ 1 → (readerFeed q frames).length ≤ 1 := by
  induction frames with
  | nil => intro q h; simpa [readerFeed] using h
  | cons f fs ih =>
    intro q h
    have : readerFeed q (f :: fs) = readerFeed (readerEnqueue q f) fs := rfl
    rw [this]
    exact ih _ (by rw [readerEnqueue_eq q f h]; simp)

theorem readerRun_capClosed (events : List ReadEvent) :
    ∀ s : ReaderState, (readerRun s events).1.capOpen = false := by
  induction events with
  | nil => intro s; simp [readerRun]
  | cons e es ih =>
    intro s
    by_cases hs : s.stop
    · simp [readerRun, hs]
    · by_cases hstep : (readerStep s e).1.stop <;>
        simp [readerRun, hs, hstep, ih]

/-! ## Helper lemmas for the sequential-id invariant -/

theorem map_intruder_shift (m k : Nat) :
    (List.range (m + 1)).map (fun i => intruderId (k + 1 + i))
      = intruderId (k + 1) ::
        (List.range m).map fun i => intruderId (k + 1 + 1 + i) := by
  rw [List.range_succ_eq_map, List.map_cons, List.map_map]
  simp only [List.cons.injEq]
  refine ⟨by simp, ?_⟩
  apply List.map_congr_left
  intro i _
  simp only [Function.comp_apply]
  congr 1
  omega

theorem map_intruder_pair_shift (m k : Nat) :
    (List.range (m + 1)).map (fun i => (intruderId (k + 1 + i), true))
      = (intruderId (k + 1), true) ::
        (List.range m).map fun i => (intruderId (k + 1 + 1 + i), true) := by
  rw [List.range_succ_eq_map, List.map_cons, List.map_map]
  simp only [List.cons.injEq]
  refine ⟨by simp, ?_⟩
  apply List.map_congr_left
  intro i _
  simp only [Function.comp_apply]
  congr 2
  omega

theorem buildSteps_fresh (dist : Int → Int → ℚ) (tol : ℚ) (ds : List Int) :
    ∀ reg : Registry,
      (∀ x ∈ ds, ∀ e ∈ reg.encodings, tol < dist e x) →
      List.Pairwise (fun a b => tol < dist a b) ds →
      buildSteps dist tol reg ds =
        ((List.range ds.length).map fun i => (intruderId (reg.ids.length + 1 + i), true),
          ⟨reg.encodings ++ ds,
            reg.ids ++ (List.range ds.length).map fun i => intruderId (reg.ids.length + 1 + i)⟩) := by
  induction ds with
  | nil => intro reg _ _; simp [buildSteps]
  | cons d ds ih =>
    intro reg hfar hpw
    have hnone : bestMatchIndex dist tol reg.encodings d = none :=
      (bestMatchIndex_none_iff dist tol reg.encodings d).mpr
        (Or.inr fun e he => hfar d (List.mem_cons_self d ds) e he)
    have hstep : match_or_add_intruder dist tol reg d =
        (intruderId (reg.ids.length + 1),
          ⟨reg.encodings ++ [d], reg.ids ++ [intruderId (reg.ids.length + 1)]⟩, true) := by
      rw [match_or_add_intruder_char, hnone]
    have hfar' : ∀ x ∈ ds, ∀ e ∈ reg.encodings ++ [d], tol < dist e x := by
      intro x hx e he
      rcases List.mem_append.mp he with he | he
      · exact hfar x (List.mem_cons_of_mem d hx) e he
      · rcases List.mem_singleton.mp he with rfl
        exact (List.pairwise_cons.mp hpw).1 x hx
    have ihh := ih ⟨reg.encodings ++ [d], reg.ids ++ [intruderId (reg.ids.length + 1)]⟩
      hfar' (List.pairwise_cons.mp hpw).2
    show buildSteps dist tol reg (d :: ds) = _
    rw [buildSteps, hstep]
    dsimp only
    rw [ihh]
    dsimp only
    have hlen : (reg.ids ++ [intruderId (reg.ids.length + 1)]).length
        = reg.ids.length + 1 := by simp
    rw [hlen]
    refine Prod.ext_iff.mpr ⟨?_, ?_⟩
    · dsimp only
      rw [List.length_cons, map_intruder_pair_shift]
    · dsimp only
      simp only [Registry.mk.injEq]
      refine ⟨by simp, ?_⟩
      rw [List.length_cons, map_intruder_shift]
      simp [List.append_assoc]

/-! ## The claims -/

/-- Claim C1: for every descriptor `d` and reference set, the face match
computes the distance to every entry, selects the entry with minimum
distance, and accepts it only if that minimum is within the tolerance; the
result is "no match" exactly when the reference set is empty or no entry is
within tolerance — and the known-catalog match and the intruder-registry
match phase behave identically (same accepted index, matched branch leaves
the registry alone, unmatched branch adds). -/
theorem claim_C1 (dist : Int → Int → ℚ) (tol : ℚ) (encs : List Int)
    (ids : List String) (d : Int) :
    (bestMatchIndex dist tol encs d = none ↔
      encs = [] ∨ ∀ e ∈ encs, tol < dist e d)
    ∧ (∀ i, bestMatchIndex dist tol encs d = some i →
        i < encs.length ∧ (encs.map fun e => dist e d).getD i 0 ≤ tol ∧
          ∀ q ∈ encs.map fun e => dist e d,
            (encs.map fun e => dist e d).getD i 0 ≤ q)
    ∧ (∀ i, bestMatchIndex dist tol encs d = some i →
        match_or_add_intruder dist tol ⟨encs, ids⟩ d
          = (ids.getD i "", ⟨encs, ids⟩, false))
    ∧ (bestMatchIndex dist tol encs d = none →
        (match_or_add_intruder dist tol ⟨encs, ids⟩ d).2.2 = true) := by
  refine ⟨bestMatchIndex_none_iff dist tol encs d,
    fun i h => bestMatchIndex_some_spec dist tol encs d i h,
    fun i h => ?_, fun h => ?_⟩
  · rw [match_or_add_intruder_char]
    dsimp only
    rw [h]
  · rw [match_or_add_intruder_char]
    dsimp only
    rw [h]

/-- Claim C2: the global unknown-event debounce gate allows a full intruder
event exactly when the elapsed time since the last full event reaches the
window, updating the stored timestamp when it allows; when it suppresses, all
four side effects (capture, identity resolution, log entry, email) are
suppressed for that detection; two resolutions 3 seconds apart under a
10-second window yield exactly one full event, two resolutions 11 seconds
apart yield two. -/
theorem claim_C2 :
    (∀ w last now : ℚ,
      (w ≤ now - last → debounceStep w last now = (true, now)) ∧
      (now - last < w → debounceStep w last now = (false, last)))
    ∧ (∀ (env : RecogEnv) (now : ℚ) (imgPath : String) (st : SessionState)
        (g : GlobalState) (d : Int) (p : String),
        bestMatchIndex env.dist env.tol env.knownEncodings d = none →
        now - g.lastUnknownCaptureTime < env.unknownWindow →
        st.intruderIdVar = some p →
        processFace env now imgPath st g d = (.ok p, st, g, []))
    ∧ (∀ (env : RecogEnv) (now : ℚ) (imgPath : String) (st : SessionState)
        (g : GlobalState) (d : Int),
        bestMatchIndex env.dist env.tol env.knownEncodings d = none →
        env.unknownWindow ≤ now - g.lastUnknownCaptureTime →
        processFace env now imgPath st g d =
          (.ok (match_or_add_intruder env.dist env.tol g.registry d).1,
            { st with
              intruderIdVar := some (match_or_add_intruder env.dist env.tol g.registry d).1 },
            ⟨now, (match_or_add_intruder env.dist env.tol g.registry d).2.1⟩,
            (if (match_or_add_intruder env.dist env.tol g.registry d).2.2 then
                [.saveRegistry (match_or_add_intruder env.dist env.tol g.registry d).2.1]
              else []) ++
              [.captureImage imgPath,
                .logEntry (match_or_add_intruder env.dist env.tol g.registry d).1
                  "Intruder" (some imgPath),
                .emailAlert imgPath]))
    ∧ (∀ t : ℚ, UNKNOWN_CAPTURE_DEBOUNCE_TIME ≤ t →
        debounceRun UNKNOWN_CAPTURE_DEBOUNCE_TIME 0 [t, t + 3] = [true, false])
    ∧ (∀ t : ℚ, UNKNOWN_CAPTURE_DEBOUNCE_TIME ≤ t →
        debounceRun UNKNOWN_CAPTURE_DEBOUNCE_TIME 0 [t, t + 11] = [true, true]) := by
  refine ⟨?_, ?_, ?_, ?_, ?_⟩
  · intro w last now
    constructor
    · intro h; rw [debounceStep, if_pos h]
    · intro h; rw [debounceStep, if_neg (not_le.mpr h)]
  · intro env now imgPath st g d p hU hsup hprev
    simp [processFace, resolveKnown, hU, debounceStep, not_le.mpr hsup, hprev]
  · intro env now imgPath st g d hU hall
    simp [processFace, resolveKnown, hU, debounceStep, hall]
  · intro t ht
    have h2 : ¬ UNKNOWN_CAPTURE_DEBOUNCE_TIME ≤ (3 : ℚ) := by
      norm_num [UNKNOWN_CAPTURE_DEBOUNCE_TIME]
    simp [debounceRun, debounceStep, sub_zero, ht, h2]
  · intro t ht
    have h2 : UNKNOWN_CAPTURE_DEBOUNCE_TIME ≤ (11 : ℚ) := by
      norm_num [UNKNOWN_CAPTURE_DEBOUNCE_TIME]
    simp [debounceRun, debounceStep, sub_zero, ht, h2]

/-- Claim C3: resolving N distinct never-before-seen descriptors one at a
time (each beyond tolerance of everything already stored) through the
registry assigns exactly the ids Intruder_1 … Intruder_N in order, appending
each pair and saving the registry at every assignment. -/
theorem claim_C3 (dist : Int → Int → ℚ) (tol : ℚ) (ds : List Int)
    (hfresh : List.Pairwise (fun a b => tol < dist a b) ds) :
    buildSteps dist tol ⟨[], []⟩ ds =
      ((List.range ds.length).map fun i => (intruderId (i + 1), true),
        ⟨ds, (List.range ds.length).map fun i => intruderId (i + 1)⟩) := by
  have h := buildSteps_fresh dist tol ds ⟨[], []⟩
    (fun x _ e he => absurd he (List.not_mem_nil e)) hfresh
  rw [h]
  refine Prod.ext_iff.mpr ⟨?_, ?_⟩
  · dsimp only
    apply List.map_congr_left
    intro i _
    congr 2
    simp only [List.length_nil]
    omega
  · dsimp only
    simp only [Registry.mk.injEq, List.nil_append]
    refine ⟨trivial, ?_⟩
    apply List.map_congr_left
    intro i _
    congr 1
    simp only [List.length_nil]
    omega

/-- Claim C4: the internal handoff queue holds at most one frame; each
successful acquisition evicts any unconsumed frame and places the new one
without blocking, so if the recognition stage never reads, after any sequence
of acquisitions ending in frame `f` the queue holds exactly `[f]`. -/
theorem claim_C4 :
    (∀ (q : List Int) (f : Int), q.length ≤ 1 → readerEnqueue q f = [f])
    ∧ (∀ (init frames : List Int) (f : Int), init.length ≤ 1 →
        readerFeed init (frames ++ [f]) = [f]) := by
  refine ⟨readerEnqueue_eq, ?_⟩
  intro init frames f h
  have hsplit : readerFeed init (frames ++ [f])
      = readerEnqueue (readerFeed init frames) f := by
    rw [readerFeed, List.foldl_append]
    rfl
  rw [hsplit, readerEnqueue_eq _ _ (readerFeed_length frames init h)]

/-- Claim C5: with skip rate 4 and the per-session counter starting at 1 on
the first received frame, detection runs exactly on counters that are
multiples of 4; every other received frame is forwarded byte-identical to its
input with no overlay drawn, no side effect, and no state change beyond the
counter. -/
theorem claim_C5 (env : RecogEnv) (now : ℚ) (imgPath : String)
    (st : SessionState) (g : GlobalState) (frame : Int)
    (dets : List (FaceLoc × Int)) :
    ((processFrameStep env now imgPath st g frame dets).processedThisFrame = true ↔
      (st.frameCounter + 1) % 4 = 0)
    ∧ ((st.frameCounter + 1) % 4 ≠ 0 →
        processFrameStep env now imgPath st g frame dets =
          ⟨{ st with frameCounter := st.frameCounter + 1 }, g, some ⟨frame, []⟩,
            [], false, none⟩) := by
  constructor
  · simp only [processFrameStep]
    split
    next h =>
      split
      next => simpa using h
      next =>
        split
        next => simpa using h
        next => simpa using h
    next h => simpa using h
  · intro hne
    simp only [processFrameStep]
    rw [if_neg hne]

/-- Claim C6: the per-session known-identity log gate is keyed by the matched
identity's full label; a log entry (with no image) is appended and that
identity's timestamp updated exactly when there is no previous entry or the
elapsed time reaches the window, otherwise nothing is logged; the shared
global state is untouched and no other identity's timestamp is read or
changed. -/
theorem claim_C6 (env : RecogEnv) (now : ℚ) (imgPath : String)
    (st : SessionState) (g : GlobalState) (d : Int) (i : Nat)
    (hm : bestMatchIndex env.dist env.tol env.knownEncodings d = some i)
    (hkn : env.knownNames.getD i "Unknown" ≠ "Unknown") :
    (lookupTime st.lastLoggedTimes (env.knownNames.getD i "Unknown") = none →
      processFace env now imgPath st g d =
        (.ok (personNameOnly (env.knownNames.getD i "Unknown")),
          { st with lastLoggedTimes :=
              setTime st.lastLoggedTimes (env.knownNames.getD i "Unknown") now },
          g, [.logEntry (personNameOnly (env.knownNames.getD i "Unknown"))
                (env.knownGenders.getD i "Intruder") none]))
    ∧ (∀ t0, lookupTime st.lastLoggedTimes (env.knownNames.getD i "Unknown") = some t0 →
        env.knownWindow ≤ now - t0 →
        processFace env now imgPath st g d =
          (.ok (personNameOnly (env.knownNames.getD i "Unknown")),
            { st with lastLoggedTimes :=
                setTime st.lastLoggedTimes (env.knownNames.getD i "Unknown") now },
            g, [.logEntry (personNameOnly (env.knownNames.getD i "Unknown"))
                  (env.knownGenders.getD i "Intruder") none]))
    ∧ (∀ t0, lookupTime st.lastLoggedTimes (env.knownNames.getD i "Unknown") = some t0 →
        now - t0 < env.knownWindow →
        processFace env now imgPath st g d =
          (.ok (personNameOnly (env.knownNames.getD i "Unknown")), st, g, []))
    ∧ (∀ k, k ≠ env.knownNames.getD i "Unknown" →
        lookupTime (setTime st.lastLoggedTimes (env.knownNames.getD i "Unknown") now) k
          = lookupTime st.lastLoggedTimes k)
    ∧ lookupTime (setTime st.lastLoggedTimes (env.knownNames.getD i "Unknown") now)
        (env.knownNames.getD i "Unknown") = some now := by
  have hres : resolveKnown env d
      = (env.knownNames.getD i "Unknown", env.knownGenders.getD i "Intruder") := by
    rw [resolveKnown, hm]
  set L := env.knownNames.getD i "Unknown" with hL
  set G := env.knownGenders.getD i "Intruder" with hG
  refine ⟨?_, ?_, ?_,
    fun k hk => lookupTime_setTime_ne _ _ _ _ hk,
    lookupTime_setTime_self _ _ _⟩
  · intro hnone
    simp [processFace, hres, hkn, hnone]
  · intro t0 hsome hge
    simp [processFace, hres, hkn, hsome, hge]
  · intro t0 hsome hlt
    simp [processFace, hres, hkn, hsome, not_le.mpr hlt]

/-- Claim C7: when the number of detections in a processed frame exceeds the
sanity ceiling of 10, the recognition stage drops the frame entirely: no
resolution, no side effect, no state change beyond the counter, and nothing
is published to the output queue for that cycle. -/
theorem claim_C7 (env : RecogEnv) (now : ℚ) (imgPath : String)
    (st : SessionState) (g : GlobalState) (frame : Int)
    (dets : List (FaceLoc × Int))
    (hp : (st.frameCounter + 1) % 4 = 0)
    (hmany : MAX_REASONABLE_FACES < dets.length) :
    processFrameStep env now imgPath st g frame dets =
      ⟨{ st with frameCounter := st.frameCounter + 1 }, g, none, [], true, none⟩ := by
  simp only [processFrameStep]
  rw [if_pos hp, if_pos hmany]

/-- Claim C8: on a read failure the acquisition stage releases the capture,
backs off and reopens; if the reopen fails it sets the shared stop flag and
exits; and on every exit path of the reader thread the capture resource ends
up released (in particular a failed initial open never holds it). -/
theorem claim_C8 :
    (∀ s : ReaderState, readerStep s (.readFail true)
        = ({ s with capOpen := true }, [.release, .backoff, .reopen true]))
    ∧ (∀ s : ReaderState, readerStep s (.readFail false)
        = ({ s with capOpen := false, stop := true },
            [.release, .backoff, .reopen false, .setStop]))
    ∧ (∀ (s : ReaderState) (events : List ReadEvent), s.stop = false →
        readerRun s (.readFail false :: events)
          = (⟨s.queue, true, false⟩,
              [.release, .backoff, .reopen false, .setStop, .release]))
    ∧ (∀ (openOk : Bool) (q : List Int) (events : List ReadEvent),
        (readerThread openOk q events).1.capOpen = false)
    ∧ (∀ (q : List Int) (events : List ReadEvent),
        (readerThread false q events).1.stop = true) := by
  refine ⟨fun s => rfl, fun s => rfl, ?_, ?_, fun q events => rfl⟩
  · intro s events hs
    simp [readerRun, readerStep, hs]
  · intro openOk q events
    cases openOk with
    | false => rfl
    | true => exact readerRun_capClosed events ⟨q, false, true⟩

/-- Claim C9: when the global debounce gate suppresses a full intruder event,
the on-frame label for the unknown face reuses the identity-id bound by the
previous full event; on the very first suppressed event of a session, when
that variable has never been bound, the access raises (undefined behavior in
the source: an unbound local is read). -/
theorem claim_C9 (env : RecogEnv) (now : ℚ) (imgPath : String)
    (st : SessionState) (g : GlobalState) (d : Int)
    (hU : bestMatchIndex env.dist env.tol env.knownEncodings d = none)
    (hsup : now - g.lastUnknownCaptureTime < env.unknownWindow) :
    (∀ p, st.intruderIdVar = some p →
      processFace env now imgPath st g d = (.ok p, st, g, []))
    ∧ (st.intruderIdVar = none →
        processFace env now imgPath st g d =
          (.error "UnboundLocalError: intruder_id_for_event", st, g, [])) := by
  have hres : resolveKnown env d = ("Unknown", "Intruder") := by
    rw [resolveKnown, hU]
  constructor
  · intro p hp
    simp [processFace, hres, debounceStep, not_le.mpr hsup, hp]
  · intro hn
    simp [processFace, hres, debounceStep, not_le.mpr hsup, hn]

/-- Claim C10: when the probe descriptor matches at least one stored record
within tolerance, `match_or_add_intruder` returns the id of the
minimum-distance record (itself within tolerance), leaves the registry
unchanged, and does not save: the registry is written only on the no-match
branch. -/
theorem claim_C10 (dist : Int → Int → ℚ) (tol : ℚ) (reg : Registry) (d : Int)
    (h : ∃ e ∈ reg.encodings, dist e d ≤ tol) :
    ∃ i, bestMatchIndex dist tol reg.encodings d = some i ∧
      match_or_add_intruder dist tol reg d = (reg.ids.getD i "", reg, false) ∧
      i < reg.encodings.length ∧
      (reg.encodings.map fun e => dist e d).getD i 0 ≤ tol ∧
      ∀ q ∈ reg.encodings.map fun e => dist e d,
        (reg.encodings.map fun e => dist e d).getD i 0 ≤ q := by
  have hne : bestMatchIndex dist tol reg.encodings d ≠ none := by
    intro hno
    rcases (bestMatchIndex_none_iff dist tol reg.encodings d).mp hno with he | hall
    · obtain ⟨e, he', _⟩ := h
      rw [he] at he'
      exact absurd he' (List.not_mem_nil e)
    · obtain ⟨e, he', hle⟩ := h
      exact absurd hle (not_le.mpr (hall e he'))
  obtain ⟨i, hi⟩ := Option.ne_none_iff_exists'.mp hne
  have hspec := bestMatchIndex_some_spec dist tol reg.encodings d i hi
  refine ⟨i, hi, ?_, hspec.1, hspec.2.1, hspec.2.2⟩
  rw [match_or_add_intruder_char, hi]

/-! ## Witnesses: the theorems evaluated at concrete inputs -/

/-- Witness for claim C1. -/
theorem claim_C1_witness :
    bestMatchIndex testDist 2 [3, 10] 9 = some 1
    ∧ match_or_add_intruder testDist 2 ⟨[3, 10], ["P1", "P2"]⟩ 9
      = ("P2", ⟨[3, 10], ["P1", "P2"]⟩, false) := by
  have hb : bestMatchIndex testDist 2 [3, 10] 9 = some 1 := by decide
  exact ⟨hb, (claim_C1 testDist 2 [3, 10] ["P1", "P2"] 9).2.2.1 1 hb⟩

/-- Witness for claim C2. -/
theorem claim_C2_witness :
    debounceRun UNKNOWN_CAPTURE_DEBOUNCE_TIME 0 [100, 100 + 3] = [true, false]
    ∧ debounceRun UNKNOWN_CAPTURE_DEBOUNCE_TIME 0 [100, 100 + 11] = [true, true]
    ∧ processFace testEnv 105 "p.jpg" ⟨3, [], some "Intruder_1"⟩ ⟨100, ⟨[], []⟩⟩ 50
      = (.ok "Intruder_1", ⟨3, [], some "Intruder_1"⟩, ⟨100, ⟨[], []⟩⟩, []) := by
  refine ⟨claim_C2.2.2.2.1 100 (by norm_num [UNKNOWN_CAPTURE_DEBOUNCE_TIME]),
    claim_C2.2.2.2.2 100 (by norm_num [UNKNOWN_CAPTURE_DEBOUNCE_TIME]),
    claim_C2.2.1 testEnv 105 "p.jpg" ⟨3, [], some "Intruder_1"⟩ ⟨100, ⟨[], []⟩⟩ 50
      "Intruder_1" (by decide)
      (by norm_num [testEnv, UNKNOWN_CAPTURE_DEBOUNCE_TIME]) rfl⟩

/-- Witness for claim C3. -/
theorem claim_C3_witness :
    buildSteps testDist RECOGNITION_TOLERANCE ⟨[], []⟩ [0, 100]
      = ([("Intruder_1", true), ("Intruder_2", true)],
          ⟨[0, 100], ["Intruder_1", "Intruder_2"]⟩) := by
  rw [claim_C3 testDist RECOGNITION_TOLERANCE [0, 100] (by decide)]
  decide

/-- Witness for claim C4. -/
theorem claim_C4_witness : readerFeed [] ([1, 2] ++ [3]) = [3] :=
  claim_C4.2 [] [1, 2] 3 (by decide)

/-- Witness for claim C5. -/
theorem claim_C5_witness :
    processFrameStep testEnv 0 "p.jpg" ⟨4, [], none⟩ ⟨0, ⟨[], []⟩⟩ 7 []
      = ⟨⟨5, [], none⟩, ⟨0, ⟨[], []⟩⟩, some ⟨7, []⟩, [], false, none⟩ :=
  (claim_C5 testEnv 0 "p.jpg" ⟨4, [], none⟩ ⟨0, ⟨[], []⟩⟩ 7 []).2 (by decide)

/-- Witness for claim C6. -/
theorem claim_C6_witness :
    processFace testEnv 30 "p.jpg" ⟨0, [("Alice__female", 1)], none⟩ ⟨0, ⟨[], []⟩⟩ 0
      = (.ok (personNameOnly "Alice__female"),
          ⟨0, setTime [("Alice__female", 1)] "Alice__female" 30, none⟩,
          ⟨0, ⟨[], []⟩⟩,
          [.logEntry (personNameOnly "Alice__female") "female" none]) :=
  (claim_C6 testEnv 30 "p.jpg" ⟨0, [("Alice__female", 1)], none⟩ ⟨0, ⟨[], []⟩⟩ 0 0
    (by decide) (by decide)).2.1 1 (by decide)
    (by norm_num [testEnv, KNOWN_FACE_LOG_DEBOUNCE_TIME])

/-- Witness for claim C7. -/
theorem claim_C7_witness :
    processFrameStep testEnv 0 "p.jpg" ⟨3, [], none⟩ ⟨0, ⟨[], []⟩⟩ 7
        (List.replicate 11 (⟨0, 100, 100, 0⟩, 5))
      = ⟨⟨4, [], none⟩, ⟨0, ⟨[], []⟩⟩, none, [], true, none⟩ :=
  claim_C7 testEnv 0 "p.jpg" ⟨3, [], none⟩ ⟨0, ⟨[], []⟩⟩ 7
    (List.replicate 11 (⟨0, 100, 100, 0⟩, 5)) (by decide) (by decide)

/-- Witness for claim C8. -/
theorem claim_C8_witness :
    readerRun ⟨[], false, true⟩ [.readFail false]
      = (⟨[], true, false⟩,
          [.release, .backoff, .reopen false, .setStop, .release]) :=
  claim_C8.2.2.1 ⟨[], false, true⟩ [] rfl

/-- Witness for claim C9. -/
theorem claim_C9_witness :
    processFace testEnv 105 "p.jpg" ⟨0, [], some "Intruder_7"⟩ ⟨100, ⟨[], []⟩⟩ 50
      = (.ok "Intruder_7", ⟨0, [], some "Intruder_7"⟩, ⟨100, ⟨[], []⟩⟩, [])
    ∧ processFace testEnv 105 "p.jpg" ⟨0, [], none⟩ ⟨100, ⟨[], []⟩⟩ 50
      = (.error "UnboundLocalError: intruder_id_for_event", ⟨0, [], none⟩,
          ⟨100, ⟨[], []⟩⟩, []) :=
  ⟨(claim_C9 testEnv 105 "p.jpg" ⟨0, [], some "Intruder_7"⟩ ⟨100, ⟨[], []⟩⟩ 50
      (by decide) (by norm_num [testEnv, UNKNOWN_CAPTURE_DEBOUNCE_TIME])).1
      "Intruder_7" rfl,
    (claim_C9 testEnv 105 "p.jpg" ⟨0, [], none⟩ ⟨100, ⟨[], []⟩⟩ 50
      (by decide) (by norm_num [testEnv, UNKNOWN_CAPTURE_DEBOUNCE_TIME])).2 rfl⟩

/-- Witness for claim C10. -/
theorem claim_C10_witness :
    match_or_add_intruder testDist 2 ⟨[3, 10], ["Intruder_1", "Intruder_2"]⟩ 9
      = ("Intruder_2", ⟨[3, 10], ["Intruder_1", "Intruder_2"]⟩, false) := by
  obtain ⟨i, hi, hres, _⟩ :=
    claim_C10 testDist 2 ⟨[3, 10], ["Intruder_1", "Intruder_2"]⟩ 9
      ⟨10, by decide, by decide⟩
  dsimp only at hi
  have hb : bestMatchIndex testDist 2 [3, 10] 9 = some 1 := by decide
  rw [hb] at hi
  obtain rfl : i = 1 := (Option.some.inj hi).symm
  exact hres

end VisionPro
